import Mathlib

/-!
Verification of the conversational order-intake pipeline
(`model.py`, `main.py`): data model, field validation
(`EnhancedOrderInitiation`), the validator node (`validate_order`), the
message normalizer (`categorize_order`) and the response composer
(`create_response`), shallowly embedded as pure Lean functions.

External language-model capabilities (extraction, clarification
generation) are modelled as function parameters: the pipeline treats
them as black-box request/response operations.
-/

namespace Sorb

/-- `OrderType(str, Enum)` from model.py: BUY or SELL. -/
inductive OrderType where
  | buy
  | sell
deriving DecidableEq, Repr

/-- `OrderClass(str, Enum)` from model.py: only the normal class `N` is declared. -/
inductive OrderClass where
  | normal
deriving DecidableEq, Repr

/-- `payload_type: Optional[Literal["FinancialPosition", "OrderInitiation"]]`. -/
inductive PayloadType where
  | financialPosition
  | orderKind
deriving DecidableEq, Repr

/-- `data_type: Literal["Human", "System", "AI"]`, also used as the role of a
model-ready chat message. -/
inductive Role where
  | human
  | system
  | ai
deriving DecidableEq, Repr

/-- `OrderInitiation(BaseModel)` from model.py: the draft order, every field
optional except the confirmation flag. `quantity` is a Python float carrying a
numeric value; it is modelled as a rational. -/
structure OrderDraftRec where
  order_confirmed : Bool
  intervenant : Option String
  security_id : Option String
  orderType : Option OrderType
  quantity : Option ℚ
  orderClass : Option OrderClass
deriving DecidableEq, Repr

/-- `EnhancedOrderInitiation` as a value: every field present. Constructed only
through `EnhancedOrderInitiation.build` below, which runs the pydantic checks. -/
structure EnhancedRec where
  order_confirmed : Bool
  intervenant : String
  security_id : String
  orderType : OrderType
  quantity : ℚ
  orderClass : OrderClass
deriving DecidableEq, Repr

/-- One pydantic validation error: the field it concerns and its message. -/
structure FieldError where
  field : String
  msg : String
deriving DecidableEq, Repr

/-- Python `re` semantics for the `$` anchor: it matches at the end of the
string or just before a single newline at the end of the string. `rest` is
what remains after the explicit pattern. -/
def dollarEnd (rest : List Char) : Bool :=
  rest = [] || rest = ['\n']

/-- A run of exactly `n` characters all matching `[\da-zA-Z]`
(`Char.isAlphanum` is the ASCII alphanumeric test). -/
def alnumRun (cs : List Char) (n : Nat) : Bool :=
  cs.length = n && cs.all Char.isAlphanum

/-- `re.match(r'^[\da-zA-Z]{7}$', s)` viewed as a boolean: seven alphanumeric
characters, then the Python `$` anchor (which tolerates one trailing newline). -/
def reMatchIntervenant (s : String) : Bool :=
  alnumRun (s.toList.take 7) 7 && dollarEnd (s.toList.drop 7)

/-- `re.match(r"^[\da-zA-Z]{6}\.[\da-zA-Z]{3}$", s)` viewed as a boolean. -/
def reMatchSecurity (s : String) : Bool :=
  alnumRun (s.toList.take 6) 6 && (s.toList.drop 6).take 1 = ['.'] &&
    alnumRun ((s.toList.drop 7).take 3) 3 && dollarEnd (s.toList.drop 10)

/-- `validate_intervenant` field validator from model.py:
`if not intervenant or not re.match(...)` raise, else return unchanged. -/
def validate_intervenant (intervenant : String) : Except String String :=
  if intervenant = "" || !reMatchIntervenant intervenant then
    .error "It seems that the intervenant is missing or incomplete, please correct"
  else
    .ok intervenant

/-- `validate_security` field validator from model.py. -/
def validate_security (security_id : String) : Except String String :=
  if security_id = "" || !reMatchSecurity security_id then
    .error "It seems that the security is missing or incomplete, please correct"
  else
    .ok security_id

/-- `validate_quantity` field validator from model.py:
`if quantity is None or quantity <= 0` raise, else return unchanged. (The
`None` case is already caught by the type check of the mandatory field.) -/
def validate_quantity (quantity : ℚ) : Except String ℚ :=
  if quantity ≤ 0 then
    .error "Quantity must be a positive number."
  else
    .ok quantity

/-- Pydantic processing of the mandatory `intervenant: str` field of
`EnhancedOrderInitiation`: a missing value is a type error; a present value
goes through the field validator. -/
def intervenantField : Option String → Except FieldError String
  | none => .error ⟨"intervenant", "Input should be a valid string"⟩
  | some s =>
    match validate_intervenant s with
    | .ok v => .ok v
    | .error m => .error ⟨"intervenant", m⟩

/-- Pydantic processing of the mandatory `security_id: str` field. -/
def securityField : Option String → Except FieldError String
  | none => .error ⟨"security_id", "Input should be a valid string"⟩
  | some s =>
    match validate_security s with
    | .ok v => .ok v
    | .error m => .error ⟨"security_id", m⟩

/-- Pydantic processing of the mandatory `orderType: OrderType` field: the
draft already constrains the value to BUY or SELL, so only presence can fail. -/
def orderTypeField : Option OrderType → Except FieldError OrderType
  | none => .error ⟨"orderType", "Input should be BUY or SELL"⟩
  | some t => .ok t

/-- Pydantic processing of the mandatory `quantity: float` field. -/
def quantityField : Option ℚ → Except FieldError ℚ
  | none => .error ⟨"quantity", "Input should be a valid number"⟩
  | some q =>
    match validate_quantity q with
    | .ok v => .ok v
    | .error m => .error ⟨"quantity", m⟩

/-- Pydantic processing of the mandatory `orderClass: OrderClass` field. -/
def orderClassField : Option OrderClass → Except FieldError OrderClass
  | none => .error ⟨"orderClass", "Input should be N"⟩
  | some c => .ok c

/-- The error contribution of one field check. -/
def errList {β : Type} : Except FieldError β → List FieldError
  | .ok _ => []
  | .error e => [e]

/-- All validation errors of a draft, in field declaration order — pydantic
collects the errors of every field, not only the first. -/
def buildErrors (d : OrderDraftRec) : List FieldError :=
  errList (intervenantField d.intervenant) ++ errList (securityField d.security_id) ++
    errList (orderTypeField d.orderType) ++ errList (quantityField d.quantity) ++
    errList (orderClassField d.orderClass)

/-- `EnhancedOrderInitiation(**draft.model_dump())`: run every field check; if
all pass, construct the validated order from the (unchanged) values, otherwise
raise a `ValidationError` carrying every field error. -/
def EnhancedRec.build (d : OrderDraftRec) : Except (List FieldError) EnhancedRec :=
  match intervenantField d.intervenant, securityField d.security_id,
      orderTypeField d.orderType, quantityField d.quantity,
      orderClassField d.orderClass with
  | .ok i, .ok s, .ok t, .ok q, .ok c => .ok ⟨d.order_confirmed, i, s, t, q, c⟩
  | _, _, _, _, _ => .error (buildErrors d)

/-- The field values of a validated order, viewed again as a draft (this is
what `model_dump` of the enhanced object yields). -/
def EnhancedRec.toDraft (e : EnhancedRec) : OrderDraftRec :=
  ⟨e.order_confirmed, some e.intervenant, some e.security_id, some e.orderType,
    some e.quantity, some e.orderClass⟩

/-- `AiAnalysis(BaseModel)`: the extraction result — a draft plus a free-text
comment. -/
structure AiAnalysis where
  orderDraft : OrderDraftRec
  comment : String
deriving DecidableEq, Repr

/-- `validate_order` from main.py, the clarification-generation capability
(the prompt chain over `chat_gpt_4o`) abstracted as the parameter `clarify`:
it receives the validation errors and the prior comment. On success the state
keeps the promoted order (same field values) and the comment untouched; on
failure only the comment is replaced by the generated clarification. -/
def validate_order (clarify : List FieldError → String → String)
    (a : AiAnalysis) : AiAnalysis :=
  match EnhancedRec.build a.orderDraft with
  | .ok e => { a with orderDraft := e.toDraft }
  | .error errs => { a with comment := clarify errs a.comment }

/-- `ConversationMessage(BaseModel)` from model.py. No validator relates
`payload` and `payload_type`; both default to `None` independently. -/
structure ConversationMessage where
  data_type : Role
  data : String
  payload_type : Option PayloadType
  payload : Option String
deriving DecidableEq, Repr

/-- A model-ready chat message (`AIMessage(content=...)`): `content` is the
payload of a turn, which may be `None`. -/
structure ChatMessage where
  role : Role
  content : Option String
deriving DecidableEq, Repr

/-- `message.payload is not undefined` from main.py: `undefined` is
starlette's unique sentinel object, distinct from every value a
`ConversationMessage` field can hold (`None` included), so this identity test
is true for every message. -/
def isNotUndefined (_payload : Option String) : Bool :=
  true

/-- The chat messages one conversation turn contributes in `categorize_order`:
for an AI-typed turn, first the payload message (guarded by the always-true
sentinel test), then — for every turn — the turn's own `data` text. -/
def emitMessage (m : ConversationMessage) : List ChatMessage :=
  let payloadPart : List ChatMessage :=
    if m.data_type = Role.ai then
      if isNotUndefined m.payload then [⟨Role.ai, m.payload⟩] else []
    else []
  payloadPart ++ [⟨Role.ai, some m.data⟩]

/-- `categorize_order` from main.py: the loop appends the contribution of each
conversation message in order. -/
def categorize_order (msgs : List ConversationMessage) : List ChatMessage :=
  msgs.foldl (fun acc m => acc ++ emitMessage m) []

/-- Rendering of an optional string field in `model_dump_json` output
(JSON escaping inside the string is elided; no claim inspects it). -/
def jsonOpt (s : Option String) : String :=
  match s with
  | none => "null"
  | some v => "\"" ++ v ++ "\""

/-- Serialized form of an `OrderType` value. -/
def OrderType.str : OrderType → String
  | .buy => "BUY"
  | .sell => "SELL"

/-- Serialized form of an `OrderClass` value. -/
def OrderClass.str : OrderClass → String
  | .normal => "N"

/-- Rendering of the numeric quantity (numeric formatting abbreviated; claims
only compare serializer output for equality). -/
def renderQ (q : ℚ) : String :=
  if q.den = 1 then toString q.num else toString q.num ++ "/" ++ toString q.den

/-- `orderInitiation.model_dump_json()`: the draft serialized as a JSON text,
fields in declaration order. -/
def serializeOrder (d : OrderDraftRec) : String :=
  "\x7b\"order_confirmed\":" ++ (if d.order_confirmed then "true" else "false") ++
    ",\"intervenant\":" ++ jsonOpt d.intervenant ++
    ",\"security_id\":" ++ jsonOpt d.security_id ++
    ",\"orderType\":" ++ jsonOpt (d.orderType.map OrderType.str) ++
    ",\"quantity\":" ++ (match d.quantity with | none => "null" | some q => renderQ q) ++
    ",\"orderClass\":" ++ jsonOpt (d.orderClass.map OrderClass.str) ++ "\x7d"

/-- `create_response` from main.py: append to the conversation history one AI
turn carrying the current comment and the serialized order of this turn. -/
def create_response (a : AiAnalysis) (conversation_messages : List ConversationMessage) :
    List ConversationMessage :=
  conversation_messages ++
    [⟨Role.ai, a.comment, some PayloadType.orderKind, some (serializeOrder a.orderDraft)⟩]

/-- The wire form of one inbound conversation message, before pydantic
validation of the literal fields. -/
structure RawMessage where
  data_type : String
  data : String
  payload_type : Option String
  payload : Option String
deriving DecidableEq, Repr

/-- Pydantic check of `data_type: Literal["Human", "System", "AI"]`. -/
def parseRole (s : String) : Option Role :=
  if s = "Human" then some Role.human
  else if s = "System" then some Role.system
  else if s = "AI" then some Role.ai
  else none

/-- Pydantic check of the optional
`payload_type: Literal["FinancialPosition", "OrderInitiation"]`. -/
def parsePayloadType (s : String) : Option PayloadType :=
  if s = "FinancialPosition" then some PayloadType.financialPosition
  else if s = "OrderInitiation" then some PayloadType.orderKind
  else none

/-- What the inbound interface (`load_default_values`, FastAPI body parsing)
enforces on one conversation message: the two literal fields must hold
admissible values; `data` and `payload` are taken as given. This is all the
validation `ConversationMessage` declares — there is no cross-field check. -/
def ConversationMessage.parse (r : RawMessage) : Except String ConversationMessage :=
  match parseRole r.data_type with
  | none => .error "data_type: unexpected value"
  | some dt =>
    match r.payload_type with
    | none => .ok ⟨dt, r.data, none, r.payload⟩
    | some pt =>
      match parsePayloadType pt with
      | none => .error "payload_type: unexpected value"
      | some p => .ok ⟨dt, r.data, some p, r.payload⟩

/-- The spec's message invariant: `payload` is present iff `payload_type` is
present. -/
def messageInvariant (m : ConversationMessage) : Bool :=
  m.payload.isSome = m.payload_type.isSome

/-- Spec §4.3 table rule for `intervenant`, as the spec words it: present and
exactly 7 alphanumeric characters. -/
def specIntervenantRule (s : String) : Bool :=
  s.toList.length = 7 && s.toList.all Char.isAlphanum

/-- Spec §4.3 table rule for `security_id`, as the spec words it: exactly 6
alphanumeric characters, a dot, then 3 alphanumeric characters. -/
def specSecurityRule (s : String) : Bool :=
  s.toList.length = 10 && alnumRun (s.toList.take 6) 6 &&
    (s.toList.drop 6).take 1 = ['.'] && alnumRun (s.toList.drop 7) 3

/-- All six spec §4.3 table rules of a draft, as the spec words them. -/
def specDraftRules (d : OrderDraftRec) : Bool :=
  (match d.intervenant with | some s => specIntervenantRule s | none => false) &&
    (match d.security_id with | some s => specSecurityRule s | none => false) &&
    d.orderType.isSome &&
    (match d.quantity with | some q => decide (0 < q) | none => false) &&
    d.orderClass.isSome

/-- The intervenant rule the validator actually enforces: present and matching
the regular expression (seven alphanumerics, Python end anchor). -/
def intervenantOk (o : Option String) : Bool :=
  match o with
  | none => false
  | some s => reMatchIntervenant s

/-- The security rule the validator actually enforces: present and matching
the regular expression. -/
def securityOk (o : Option String) : Bool :=
  match o with
  | none => false
  | some s => reMatchSecurity s

/-- The quantity rule the validator actually enforces: present and strictly
positive. -/
def quantityOk (o : Option ℚ) : Bool :=
  match o with
  | none => false
  | some q => decide (0 < q)

/-- The fields of a draft whose validation rule fails, in field declaration
order. -/
def violatedFields (d : OrderDraftRec) : List String :=
  (if intervenantOk d.intervenant then [] else ["intervenant"]) ++
    (if securityOk d.security_id then [] else ["security_id"]) ++
    (if d.orderType.isSome then [] else ["orderType"]) ++
    (if quantityOk d.quantity then [] else ["quantity"]) ++
    (if d.orderClass.isSome then [] else ["orderClass"])

/-! ## Helper lemmas -/

lemma intervenantField_isOk (o : Option String) :
    (intervenantField o).isOk = intervenantOk o := by
  cases o with
  | none => rfl
  | some s =>
    by_cases hs : s = ""
    · subst hs; rfl
    · cases hr : reMatchIntervenant s <;>
        simp [intervenantField, validate_intervenant, intervenantOk, hs, hr,
          Except.isOk, Except.toBool]

lemma securityField_isOk (o : Option String) :
    (securityField o).isOk = securityOk o := by
  cases o with
  | none => rfl
  | some s =>
    by_cases hs : s = ""
    · subst hs; rfl
    · cases hr : reMatchSecurity s <;>
        simp [securityField, validate_security, securityOk, hs, hr,
          Except.isOk, Except.toBool]

lemma quantityField_isOk (o : Option ℚ) :
    (quantityField o).isOk = quantityOk o := by
  cases o with
  | none => rfl
  | some q =>
    rcases le_or_lt q 0 with hq | hq
    · simp [quantityField, validate_quantity, quantityOk, hq, not_lt.mpr hq,
        Except.isOk, Except.toBool]
    · simp [quantityField, validate_quantity, quantityOk, hq, not_le.mpr hq,
        Except.isOk, Except.toBool]

lemma orderTypeField_isOk (o : Option OrderType) :
    (orderTypeField o).isOk = o.isSome := by
  cases o <;> rfl

lemma orderClassField_isOk (o : Option OrderClass) :
    (orderClassField o).isOk = o.isSome := by
  cases o <;> rfl

lemma build_isOk_eq (d : OrderDraftRec) :
    (EnhancedRec.build d).isOk =
      (intervenantOk d.intervenant && securityOk d.security_id &&
        d.orderType.isSome && quantityOk d.quantity && d.orderClass.isSome) := by
  rw [← intervenantField_isOk, ← securityField_isOk, ← orderTypeField_isOk,
    ← quantityField_isOk, ← orderClassField_isOk]
  unfold EnhancedRec.build
  cases hI : intervenantField d.intervenant <;>
    cases hS : securityField d.security_id <;>
      cases hT : orderTypeField d.orderType <;>
        cases hQ : quantityField d.quantity <;>
          cases hC : orderClassField d.orderClass <;>
            simp [Except.isOk, Except.toBool]

lemma build_error_eq (d : OrderDraftRec) (h : (EnhancedRec.build d).isOk = false) :
    EnhancedRec.build d = .error (buildErrors d) := by
  unfold EnhancedRec.build buildErrors
  unfold EnhancedRec.build at h
  cases hI : intervenantField d.intervenant <;>
    cases hS : securityField d.security_id <;>
      cases hT : orderTypeField d.orderType <;>
        cases hQ : quantityField d.quantity <;>
          cases hC : orderClassField d.orderClass <;>
            simp_all [Except.isOk, Except.toBool, errList]

lemma intervenantField_ok_eq {o : Option String} {v : String}
    (h : intervenantField o = .ok v) : o = some v := by
  cases o with
  | none => simp [intervenantField] at h
  | some s =>
    cases hc : (decide (s = "") || !reMatchIntervenant s) <;>
      simp [intervenantField, validate_intervenant, hc] at h
    exact congrArg some h

lemma securityField_ok_eq {o : Option String} {v : String}
    (h : securityField o = .ok v) : o = some v := by
  cases o with
  | none => simp [securityField] at h
  | some s =>
    cases hc : (decide (s = "") || !reMatchSecurity s) <;>
      simp [securityField, validate_security, hc] at h
    exact congrArg some h

lemma quantityField_ok_eq {o : Option ℚ} {v : ℚ}
    (h : quantityField o = .ok v) : o = some v := by
  cases o with
  | none => simp [quantityField] at h
  | some q =>
    by_cases hq : q ≤ 0 <;> simp [quantityField, validate_quantity, hq] at h
    exact congrArg some h

lemma orderTypeField_ok_eq {o : Option OrderType} {v : OrderType}
    (h : orderTypeField o = .ok v) : o = some v := by
  cases o with
  | none => simp [orderTypeField] at h
  | some t => simp [orderTypeField] at h; exact congrArg some h

lemma orderClassField_ok_eq {o : Option OrderClass} {v : OrderClass}
    (h : orderClassField o = .ok v) : o = some v := by
  cases o with
  | none => simp [orderClassField] at h
  | some c => cases c; cases v; rfl

lemma build_ok_toDraft {d : OrderDraftRec} {e : EnhancedRec}
    (h : EnhancedRec.build d = .ok e) : e.toDraft = d := by
  unfold EnhancedRec.build at h
  split at h
  · rename_i i0 s0 t0 q0 c0 hI hS hT hQ hC
    have h1 := intervenantField_ok_eq hI
    have h2 := securityField_ok_eq hS
    have h3 := orderTypeField_ok_eq hT
    have h4 := quantityField_ok_eq hQ
    have h5 := orderClassField_ok_eq hC
    injection h with h
    subst h
    obtain ⟨oc, oi, os, ot, oq, ocl⟩ := d
    simp_all [EnhancedRec.toDraft]
  · simp at h

lemma isOk_exists_ok {ε β : Type} {e : Except ε β} (h : e.isOk = true) :
    ∃ v, e = .ok v := by
  cases e with
  | ok v => exact ⟨v, rfl⟩
  | error _ => simp [Except.isOk, Except.toBool] at h

lemma validate_order_ok_eq (clarify : List FieldError → String → String)
    (a : AiAnalysis) (h : (EnhancedRec.build a.orderDraft).isOk = true) :
    validate_order clarify a = a := by
  obtain ⟨d0, c0⟩ := a
  obtain ⟨e, he⟩ := isOk_exists_ok h
  have hd := build_ok_toDraft he
  simp [validate_order, he, hd]

lemma validate_order_error_eq (clarify : List FieldError → String → String)
    (d : OrderDraftRec) (c : String) (h : (EnhancedRec.build d).isOk = false) :
    validate_order clarify ⟨d, c⟩ = ⟨d, clarify (buildErrors d) c⟩ := by
  unfold validate_order
  rw [build_error_eq d h]

lemma spec_intervenant_re (s : String) (h : specIntervenantRule s = true) :
    reMatchIntervenant s = true := by
  unfold specIntervenantRule at h
  simp only [Bool.and_eq_true, decide_eq_true_eq] at h
  obtain ⟨hlen, hall⟩ := h
  unfold reMatchIntervenant
  rw [List.take_of_length_le (le_of_eq hlen), List.drop_eq_nil_of_le (le_of_eq hlen)]
  simp [alnumRun, dollarEnd]
  exact ⟨hlen, List.all_eq_true.mp hall⟩

lemma spec_security_re (s : String) (h : specSecurityRule s = true) :
    reMatchSecurity s = true := by
  unfold specSecurityRule alnumRun at h
  simp only [Bool.and_eq_true, decide_eq_true_eq] at h
  obtain ⟨⟨⟨hlen, h6len, h6all⟩, hdot⟩, h3len, h3all⟩ := h
  have hd7 : (s.toList.drop 7).length = 3 := by
    rw [List.length_drop, hlen]
  unfold reMatchSecurity
  rw [List.take_of_length_le (le_of_eq hd7),
    List.drop_eq_nil_of_le (le_of_eq hlen)]
  simp [alnumRun, dollarEnd]
  have hsl : s.length = 10 := hlen
  exact ⟨⟨⟨by omega, List.all_eq_true.mp h6all⟩, hdot⟩, by omega,
    List.all_eq_true.mp h3all⟩

lemma specDraftRules_oks (d : OrderDraftRec) (h : specDraftRules d = true) :
    intervenantOk d.intervenant = true ∧ securityOk d.security_id = true ∧
      d.orderType.isSome = true ∧ quantityOk d.quantity = true ∧
      d.orderClass.isSome = true := by
  unfold specDraftRules at h
  simp only [Bool.and_eq_true] at h
  obtain ⟨⟨⟨⟨h1, h2⟩, h3⟩, h4⟩, h5⟩ := h
  refine ⟨?_, ?_, h3, ?_, h5⟩
  · cases hi : d.intervenant with
    | none => rw [hi] at h1; simp at h1
    | some s =>
      rw [hi] at h1
      simpa [intervenantOk] using spec_intervenant_re s h1
  · cases hs : d.security_id with
    | none => rw [hs] at h2; simp at h2
    | some s =>
      rw [hs] at h2
      simpa [securityOk] using spec_security_re s h2
  · cases hq : d.quantity with
    | none => rw [hq] at h4; simp at h4
    | some q => rw [hq] at h4; simpa [quantityOk] using h4

lemma errList_map_field {β : Type} (e : Except FieldError β) (n : String)
    (hname : ∀ fe, e = .error fe → fe.field = n) :
    (errList e).map FieldError.field = if e.isOk then [] else [n] := by
  cases e with
  | ok v => rfl
  | error fe => simp [errList, Except.isOk, Except.toBool, hname fe rfl]

lemma intervenantField_error_field {o : Option String} {fe : FieldError}
    (h : intervenantField o = .error fe) : fe.field = "intervenant" := by
  cases o with
  | none => simp [intervenantField] at h; rw [← h]
  | some s =>
    cases hc : (decide (s = "") || !reMatchIntervenant s) <;>
      simp [intervenantField, validate_intervenant, hc] at h
    rw [← h]

lemma securityField_error_field {o : Option String} {fe : FieldError}
    (h : securityField o = .error fe) : fe.field = "security_id" := by
  cases o with
  | none => simp [securityField] at h; rw [← h]
  | some s =>
    cases hc : (decide (s = "") || !reMatchSecurity s) <;>
      simp [securityField, validate_security, hc] at h
    rw [← h]

lemma orderTypeField_error_field {o : Option OrderType} {fe : FieldError}
    (h : orderTypeField o = .error fe) : fe.field = "orderType" := by
  cases o with
  | none => simp [orderTypeField] at h; rw [← h]
  | some t => simp [orderTypeField] at h

lemma quantityField_error_field {o : Option ℚ} {fe : FieldError}
    (h : quantityField o = .error fe) : fe.field = "quantity" := by
  cases o with
  | none => simp [quantityField] at h; rw [← h]
  | some q =>
    by_cases hq : q ≤ 0 <;> simp [quantityField, validate_quantity, hq] at h
    rw [← h]

lemma orderClassField_error_field {o : Option OrderClass} {fe : FieldError}
    (h : orderClassField o = .error fe) : fe.field = "orderClass" := by
  cases o with
  | none => simp [orderClassField] at h; rw [← h]
  | some c => simp [orderClassField] at h

lemma buildErrors_fields (d : OrderDraftRec) :
    (buildErrors d).map FieldError.field = violatedFields d := by
  unfold buildErrors violatedFields
  rw [List.map_append, List.map_append, List.map_append, List.map_append]
  rw [errList_map_field _ "intervenant" (fun fe h => intervenantField_error_field h),
    errList_map_field _ "security_id" (fun fe h => securityField_error_field h),
    errList_map_field _ "orderType" (fun fe h => orderTypeField_error_field h),
    errList_map_field _ "quantity" (fun fe h => quantityField_error_field h),
    errList_map_field _ "orderClass" (fun fe h => orderClassField_error_field h)]
  rw [intervenantField_isOk, securityField_isOk, orderTypeField_isOk,
    quantityField_isOk, orderClassField_isOk]

lemma violatedFields_nil_of_isOk (d : OrderDraftRec)
    (h : (EnhancedRec.build d).isOk = true) : violatedFields d = [] := by
  rw [build_isOk_eq] at h
  simp only [Bool.and_eq_true] at h
  obtain ⟨⟨⟨⟨h1, h2⟩, h3⟩, h4⟩, h5⟩ := h
  simp [violatedFields, h1, h2, h3, h4, h5]

lemma categorize_order_eq_flat (msgs : List ConversationMessage) :
    categorize_order msgs = msgs.flatMap emitMessage := by
  have aux : ∀ (ms : List ConversationMessage) (acc : List ChatMessage),
      ms.foldl (fun a m => a ++ emitMessage m) acc = acc ++ ms.flatMap emitMessage := by
    intro ms
    induction ms with
    | nil => intro acc; simp
    | cons m ms ih =>
      intro acc
      simp [List.foldl_cons, ih, List.append_assoc]
  simpa [categorize_order] using aux msgs []

lemma emitMessage_eq (m : ConversationMessage) :
    emitMessage m =
      if m.data_type = Role.ai then [⟨Role.ai, m.payload⟩, ⟨Role.ai, some m.data⟩]
      else [⟨Role.ai, some m.data⟩] := by
  by_cases hm : m.data_type = Role.ai <;> simp [emitMessage, isNotUndefined, hm]

/-! ## Claims -/

/-- C1, counterexample: the rule "exactly 7 alphanumeric characters" is not
what the code checks. The draft whose intervenant is "abc1234\n" — seven
alphanumerics plus a trailing newline, hence not exactly 7 alphanumeric
characters — is promoted, because the Python `$` anchor in `re.match` also
matches just before a trailing newline. -/
theorem sorb_trailing_newline_promoted :
    (EnhancedRec.build ⟨true, some "abc1234\n", some "123456.789",
        some OrderType.buy, some 100, some OrderClass.normal⟩).isOk = true ∧
      specIntervenantRule "abc1234\n" = false := by
  constructor <;> decide

/-- C1 (amended): a draft is promoted to a validated order iff all six
enforced field rules hold — intervenant present and matching the seven
alphanumerics pattern under Python anchor semantics (one trailing newline
tolerated), security_id present and matching the 6+dot+3 pattern likewise,
order type present, quantity present and strictly positive, order class
present, and the confirmation flag always present in the draft. When any rule
fails the draft is not promoted and its comment is replaced by the generated
clarification. -/
theorem sorb_promotion_iff_field_rules (d : OrderDraftRec)
    (clarify : List FieldError → String → String) (c : String) :
    ((EnhancedRec.build d).isOk =
      (intervenantOk d.intervenant && securityOk d.security_id &&
        d.orderType.isSome && quantityOk d.quantity && d.orderClass.isSome)) ∧
    ((EnhancedRec.build d).isOk = false →
      validate_order clarify ⟨d, c⟩ = ⟨d, clarify (buildErrors d) c⟩) :=
  ⟨build_isOk_eq d, fun h => validate_order_error_eq clarify d c h⟩

/-- C1 witness: the failure branch of the previous theorem evaluated at the
fully-empty draft. -/
theorem sorb_promotion_iff_field_rules_check :
    validate_order (fun _ _ => "need info")
        ⟨⟨false, none, none, none, none, none⟩, "ok"⟩ =
      ⟨⟨false, none, none, none, none, none⟩, "need info"⟩ :=
  (sorb_promotion_iff_field_rules ⟨false, none, none, none, none, none⟩
    (fun _ _ => "need info") "ok").2 (by decide)

/-- C2: a draft satisfying every rule of the table in §4.3 as the spec words
it is promoted; the promoted order carries field-for-field the values of the
draft and the comment is left unchanged. -/
theorem sorb_success_preserves_fields (d : OrderDraftRec)
    (clarify : List FieldError → String → String) (c : String)
    (h : specDraftRules d = true) :
    ∃ e : EnhancedRec, EnhancedRec.build d = .ok e ∧ e.toDraft = d ∧
      validate_order clarify ⟨d, c⟩ = ⟨d, c⟩ := by
  obtain ⟨h1, h2, h3, h4, h5⟩ := specDraftRules_oks d h
  have hOk : (EnhancedRec.build d).isOk = true := by
    rw [build_isOk_eq, h1, h2, h3, h4, h5]
    rfl
  obtain ⟨e, he⟩ := isOk_exists_ok hOk
  exact ⟨e, he, build_ok_toDraft he, validate_order_ok_eq clarify ⟨d, c⟩ hOk⟩

/-- C2 witness: the theorem evaluated at the complete draft of Scenario 2. -/
theorem sorb_success_preserves_fields_check :
    ∃ e : EnhancedRec,
      EnhancedRec.build ⟨true, some "AB12345", some "123456.ABC",
          some OrderType.buy, some 100, some OrderClass.normal⟩ = .ok e ∧
        e.toDraft = ⟨true, some "AB12345", some "123456.ABC",
          some OrderType.buy, some 100, some OrderClass.normal⟩ ∧
        validate_order (fun _ _ => "need info")
            ⟨⟨true, some "AB12345", some "123456.ABC", some OrderType.buy,
              some 100, some OrderClass.normal⟩, "thanks"⟩ =
          ⟨⟨true, some "AB12345", some "123456.ABC", some OrderType.buy,
            some 100, some OrderClass.normal⟩, "thanks"⟩ :=
  sorb_success_preserves_fields _ _ _ (by decide)

/-- C3, counterexample: nothing in the code forces the generated clarification
to differ from the prior comment — with a clarification capability that
returns the prior comment verbatim, a failing draft keeps its comment, so the
output comment can equal the input comment. -/
theorem sorb_identity_clarifier_keeps_comment :
    (EnhancedRec.build ⟨false, none, none, none, none, none⟩).isOk = false ∧
      (validate_order (fun _ p => p)
          ⟨⟨false, none, none, none, none, none⟩, "hello"⟩).comment = "hello" := by
  constructor <;> decide

/-- C3 (amended): on any failing draft the validator replaces exactly the
comment — the new comment is the clarification generated from the violations
and the prior comment, so it differs from the input comment whenever the
capability returns different text — and every order field of the output
equals the corresponding field of the input draft. -/
theorem sorb_failure_replaces_only_comment (d : OrderDraftRec)
    (clarify : List FieldError → String → String) (c : String)
    (h : (EnhancedRec.build d).isOk = false) :
    validate_order clarify ⟨d, c⟩ = ⟨d, clarify (buildErrors d) c⟩ :=
  validate_order_error_eq clarify d c h

/-- C3 witness: the theorem evaluated at a draft with a malformed security
identifier and a negative quantity. -/
theorem sorb_failure_replaces_only_comment_check :
    validate_order (fun _ _ => "please complete")
        ⟨⟨false, none, some "12.345", some OrderType.sell, some (-5), none⟩,
          "prior"⟩ =
      ⟨⟨false, none, some "12.345", some OrderType.sell, some (-5), none⟩,
        "please complete"⟩ :=
  sorb_failure_replaces_only_comment _ _ _ (by decide)

/-- C4: the composer returns the history with exactly one appended turn — the
first n entries are the input unchanged, and the appended entry is an AI turn
whose data is the comment of the outcome and whose payload is the serialized
order of this turn. -/
theorem sorb_composer_appends_one_turn (a : AiAnalysis)
    (hist : List ConversationMessage) :
    (create_response a hist).length = hist.length + 1 ∧
      (create_response a hist).take hist.length = hist ∧
      (create_response a hist).drop hist.length =
        [⟨Role.ai, a.comment, some PayloadType.orderKind,
          some (serializeOrder a.orderDraft)⟩] := by
  refine ⟨?_, ?_, ?_⟩ <;> simp [create_response]

/-- C5, counterexample: the normalizer does not emit the payload of a
non-AI-typed message — a Human turn carrying a set payload contributes only
its data text, although the claim requires the payload to be emitted whenever
it is set. -/
theorem sorb_human_payload_not_emitted :
    categorize_order [⟨Role.human, "hi", some PayloadType.orderKind, some "PL"⟩] =
        [⟨Role.ai, some "hi"⟩] ∧
      (⟨Role.human, "hi", some PayloadType.orderKind, some "PL"⟩ :
          ConversationMessage).payload ≠ none := by
  constructor <;> decide

/-- C5 (amended): the normalizer processes messages in conversation order;
each AI-typed message contributes its payload (even when absent) and then its
data text, every other message contributes only its data text; the empty
input yields the empty output. -/
theorem sorb_normalizer_emission_shape (msgs : List ConversationMessage)
    (m : ConversationMessage) :
    categorize_order ([] : List ConversationMessage) = [] ∧
      categorize_order (msgs ++ [m]) =
        categorize_order msgs ++
          (if m.data_type = Role.ai then
            [⟨Role.ai, m.payload⟩, ⟨Role.ai, some m.data⟩]
          else [⟨Role.ai, some m.data⟩]) := by
  refine ⟨rfl, ?_⟩
  rw [categorize_order_eq_flat, categorize_order_eq_flat, List.flatMap_append,
    ← emitMessage_eq]
  simp

/-- C6, counterexample: the inbound interface accepts a message whose payload
is set while its payload type is absent — the request is not rejected, the
violating message enters the pipeline. -/
theorem sorb_inbound_accepts_mismatch :
    ConversationMessage.parse ⟨"Human", "hi", none, some "ghost"⟩ =
        .ok ⟨Role.human, "hi", none, some "ghost"⟩ ∧
      messageInvariant ⟨Role.human, "hi", none, some "ghost"⟩ = false := by
  exact ⟨rfl, rfl⟩

/-- C6 (amended): the payload/payload-type invariant is not enforced at the
inbound interface — a violating message is accepted rather than rejected —
while every message the pipeline itself appends through the composer does
satisfy the invariant. -/
theorem sorb_invariant_unenforced_inbound (a : AiAnalysis)
    (hist : List ConversationMessage) (m : ConversationMessage)
    (hm : m ∈ create_response a hist) :
    (m ∈ hist ∨ messageInvariant m = true) ∧
      ∃ r : RawMessage, (ConversationMessage.parse r).isOk = true ∧
        ∀ m2 : ConversationMessage, ConversationMessage.parse r = .ok m2 →
          messageInvariant m2 = false := by
  constructor
  · have hm2 : m ∈ hist ∨ m = ⟨Role.ai, a.comment, some PayloadType.orderKind,
        some (serializeOrder a.orderDraft)⟩ := by
      simpa [create_response] using hm
    rcases hm2 with h | rfl
    · exact Or.inl h
    · exact Or.inr rfl
  · refine ⟨⟨"Human", "hi", none, some "ghost"⟩, by decide, ?_⟩
    intro m2 h
    have hp : ConversationMessage.parse ⟨"Human", "hi", none, some "ghost"⟩ =
        .ok ⟨Role.human, "hi", none, some "ghost"⟩ := rfl
    rw [hp] at h
    injection h with h
    rw [← h]
    decide

/-- C6 witness: the previous theorem applied to the turn the composer appends
to an empty history. -/
theorem sorb_invariant_unenforced_inbound_check :
    ((⟨Role.ai, "done", some PayloadType.orderKind,
        some (serializeOrder ⟨false, none, none, none, none, none⟩)⟩ :
          ConversationMessage) ∈ ([] : List ConversationMessage) ∨
      messageInvariant ⟨Role.ai, "done", some PayloadType.orderKind,
        some (serializeOrder ⟨false, none, none, none, none, none⟩)⟩ = true) ∧
      ∃ r : RawMessage, (ConversationMessage.parse r).isOk = true ∧
        ∀ m2 : ConversationMessage, ConversationMessage.parse r = .ok m2 →
          messageInvariant m2 = false :=
  sorb_invariant_unenforced_inbound ⟨⟨false, none, none, none, none, none⟩, "done"⟩
    [] _ (by simp [create_response])

/-- C7: validation is idempotent — an order that passes validation is returned
unchanged with its comment, so a second validation (with any clarification
capability) returns the same value and generates no clarification. -/
theorem sorb_validation_idempotent
    (clarify clarify2 : List FieldError → String → String) (a : AiAnalysis)
    (h : (EnhancedRec.build a.orderDraft).isOk = true) :
    validate_order clarify a = a ∧
      validate_order clarify2 (validate_order clarify a) =
        validate_order clarify a := by
  have h1 := validate_order_ok_eq clarify a h
  refine ⟨h1, ?_⟩
  rw [h1, validate_order_ok_eq clarify2 a h]

/-- C7 witness: the theorem evaluated at a fully valid order. -/
theorem sorb_validation_idempotent_check :
    validate_order (fun _ _ => "x")
        ⟨⟨true, some "AB12345", some "123456.ABC", some OrderType.buy,
          some 100, some OrderClass.normal⟩, "thanks"⟩ =
      ⟨⟨true, some "AB12345", some "123456.ABC", some OrderType.buy,
        some 100, some OrderClass.normal⟩, "thanks"⟩ ∧
    validate_order (fun _ _ => "y")
        (validate_order (fun _ _ => "x")
          ⟨⟨true, some "AB12345", some "123456.ABC", some OrderType.buy,
            some 100, some OrderClass.normal⟩, "thanks"⟩) =
      validate_order (fun _ _ => "x")
        ⟨⟨true, some "AB12345", some "123456.ABC", some OrderType.buy,
          some 100, some OrderClass.normal⟩, "thanks"⟩ :=
  sorb_validation_idempotent _ _ _ (by decide)

/-- C8: on a draft violating more than one rule, the error set handed to the
clarification capability together with the prior comment covers every
violated field in declaration order, not only the first one encountered. -/
theorem sorb_all_violations_collected (d : OrderDraftRec)
    (clarify : List FieldError → String → String) (c : String)
    (h : 2 ≤ (violatedFields d).length) :
    (buildErrors d).map FieldError.field = violatedFields d ∧
      validate_order clarify ⟨d, c⟩ = ⟨d, clarify (buildErrors d) c⟩ := by
  refine ⟨buildErrors_fields d, ?_⟩
  have hFail : (EnhancedRec.build d).isOk = false := by
    cases hOk : (EnhancedRec.build d).isOk with
    | false => rfl
    | true =>
      rw [violatedFields_nil_of_isOk d hOk] at h
      simp at h
  exact validate_order_error_eq clarify d c hFail

/-- C8 witness: the theorem evaluated at a draft violating four rules. -/
theorem sorb_all_violations_collected_check :
    (buildErrors ⟨false, none, some "12.345", some OrderType.sell, some (-5),
          none⟩).map FieldError.field =
      violatedFields ⟨false, none, some "12.345", some OrderType.sell, some (-5),
        none⟩ ∧
    validate_order (fun _ _ => "fix")
        ⟨⟨false, none, some "12.345", some OrderType.sell, some (-5), none⟩,
          "prior"⟩ =
      ⟨⟨false, none, some "12.345", some OrderType.sell, some (-5), none⟩,
        "fix"⟩ :=
  sorb_all_violations_collected _ _ _ (by decide)

/-- C9: every model message the normalizer emits carries the AI role,
whatever the data type of the source conversation message is. -/
theorem sorb_normalizer_role_always_ai (msgs : List ConversationMessage)
    (x : ChatMessage) (hx : x ∈ categorize_order msgs) : x.role = Role.ai := by
  rw [categorize_order_eq_flat] at hx
  obtain ⟨m, hm, hxm⟩ := List.mem_flatMap.mp hx
  rw [emitMessage_eq] at hxm
  by_cases hai : m.data_type = Role.ai <;> simp [hai] at hxm
  · rcases hxm with rfl | rfl <;> rfl
  · rw [hxm]

/-- C9 witness: the theorem evaluated on the output of a Human turn. -/
theorem sorb_normalizer_role_always_ai_check :
    (⟨Role.ai, some "q"⟩ : ChatMessage).role = Role.ai :=
  sorb_normalizer_role_always_ai [⟨Role.human, "q", none, none⟩]
    ⟨Role.ai, some "q"⟩ (by decide)

/-- C10: for an AI-typed message the payload branch is always taken — the
sentinel identity test is identically true — so a payload model message is
emitted even when the payload is None, and its content is then None. -/
theorem sorb_ai_payload_branch_always_taken (m : ConversationMessage)
    (hai : m.data_type = Role.ai) :
    categorize_order [m] = [⟨Role.ai, m.payload⟩, ⟨Role.ai, some m.data⟩] ∧
      (m.payload = none →
        categorize_order [m] = [⟨Role.ai, none⟩, ⟨Role.ai, some m.data⟩]) := by
  have h1 : categorize_order [m] =
      [⟨Role.ai, m.payload⟩, ⟨Role.ai, some m.data⟩] := by
    rw [categorize_order_eq_flat]
    simp [emitMessage_eq, hai]
  exact ⟨h1, fun hp => by rw [h1, hp]⟩

/-- C10 witness: the theorem evaluated at an AI turn without payload. -/
theorem sorb_ai_payload_branch_always_taken_check :
    categorize_order [⟨Role.ai, "hi", none, none⟩] =
        [⟨Role.ai, none⟩, ⟨Role.ai, some "hi"⟩] ∧
      ((⟨Role.ai, "hi", none, none⟩ : ConversationMessage).payload = none →
        categorize_order [⟨Role.ai, "hi", none, none⟩] =
          [⟨Role.ai, none⟩, ⟨Role.ai, some "hi"⟩]) :=
  sorb_ai_payload_branch_always_taken ⟨Role.ai, "hi", none, none⟩ rfl

end Sorb
